import Mathlib

/-!
# Verification of the arthur-redshift-etl core modules

Shallow embedding of the Python modules `etl/errors.py`, `etl/load.py`,
`etl/extract/extractor.py` and `etl/s3.py`, together with theorems that
settle the specification claims about them.

All machine-level effects (database statements, S3 calls, sleeps, log
messages) are reified into explicit data so that the control flow of the
source can be reproduced exactly.
-/

namespace ETL

/-! ## Retry policy (`etl/errors.py`, `retry`) -/

/-- Outcome of one invocation of the retried operation: the function either
returns a value, raises a `TransientETLError`, or raises any other
(permanent) exception. -/
inductive Outcome where
  | success (v : Nat)
  | transient
  | permanent
deriving DecidableEq, Repr

/-- Result of `retry`: the successful value, an immediately re-raised
permanent error (tagged with the attempt on which it occurred), or
`RetriesExhaustedError` chained from the last transient cause (the attempt
index of the last transient failure). -/
inductive RetryResult where
  | ok (v : Nat)
  | permanentRaise (attempt : Nat)
  | exhausted (lastTransientCause : Option Nat)
deriving DecidableEq, Repr

/-- The `for attempt in range(max_retries + 1)` loop of `retry`.
`fuel` is the number of loop iterations still to run (initially
`max_retries + 1`), `attempt` the current 0-based attempt index, `sleeps`
the durations slept so far, `lastFailure` the attempt index of the last
transient failure.  When the loop ends without `break`, the `else` clause
raises `RetriesExhaustedError from failure_reason`. -/
def retryLoop (f : Nat → Outcome) (maxRetries : Nat) :
    Nat → Nat → List Nat → Option Nat → RetryResult × List Nat
  | _, 0, sleeps, lastFailure => (.exhausted lastFailure, sleeps)
  | attempt, fuel + 1, sleeps, lastFailure =>
    match f attempt with
    | .success v => (.ok v, sleeps)
    | .permanent => (.permanentRaise attempt, sleeps)
    | .transient =>
      let remainingAttempts := maxRetries - attempt
      if remainingAttempts ≠ 0 then
        retryLoop f maxRetries (attempt + 1) fuel (sleeps ++ [5 ^ (attempt + 1)]) (some attempt)
      else
        retryLoop f maxRetries (attempt + 1) fuel sleeps (some attempt)

/-- `retry(max_retries, func, logger)` from `etl/errors.py`: run the
operation up to `max_retries + 1` times, sleeping `5 ** (attempt + 1)`
between attempts that have retries remaining; a non-transient error is
re-raised at once; exhaustion raises `RetriesExhaustedError` chained from
the last transient failure.  Returns the result together with the list of
sleep durations in order. -/
def retry (f : Nat → Outcome) (maxRetries : Nat) : RetryResult × List Nat :=
  retryLoop f maxRetries 0 (maxRetries + 1) [] none

/-! ## `copy_data` (`etl/load.py`) -/

/-- Warehouse statements issued by `copy_data`, in the order the source
executes them. -/
inductive CopyStmt where
  | deleteFrom
  | copyFromManifest
  | lastCopyCount
deriving DecidableEq, Repr

/-- Result of `copy_data`: normal return, `MissingManifestError`, or a
re-raised database error from the DELETE/COPY block. -/
inductive CopyOutcome where
  | ok
  | missingManifest
  | dbError
deriving DecidableEq, Repr

/-- Execute the statements of the `try` block of `copy_data` in order,
stopping at the first statement on which the database raises
(`psycopg2.Error`), which the source re-raises after logging. -/
def runCopyStmts (dbRaises : CopyStmt → Bool) :
    List CopyStmt → List CopyStmt × CopyOutcome
  | [] => ([], .ok)
  | s :: rest =>
    if dbRaises s then ([s], .dbError)
    else
      let (executed, outcome) := runCopyStmts dbRaises rest
      (s :: executed, outcome)

/-- `copy_data(conn, relation, aws_iam_role, skip_copy, dry_run)` from
`etl/load.py`: dry runs only log; `skip_copy` only logs; otherwise a
missing manifest raises `MissingManifestError` and a present manifest
triggers DELETE, COPY and the copy-count query on the connection.
Returns the statements executed and the outcome. -/
def copy_data (hasManifest skipCopy dryRun : Bool) (dbRaises : CopyStmt → Bool) :
    List CopyStmt × CopyOutcome :=
  if dryRun then ([], .ok)
  else if skipCopy then ([], .ok)
  else if !hasManifest then ([], .missingManifest)
  else runCopyStmts dbRaises [.deleteFrom, .copyFromManifest, .lastCopyCount]

/-! ## Extraction orchestrator (`etl/extract/extractor.py`) -/

/-- The part of a `RelationDescription` that `Extractor.extract_source`
inspects: its identifier and the `is_required` flag. -/
structure ExtractRelation where
  identifier : String
  is_required : Bool
deriving DecidableEq, Repr

/-- Mutable state threaded through `Extractor.extract_source`: the `failed`
list of relations collected per source, the shared `self.failed_sources`
set, and whether the per-source loop re-raised an exception. -/
structure ExtractState where
  failed : List String
  failedSources : List String
  raised : Bool
deriving DecidableEq, Repr

/-- `self.failed_sources.add(source.name)`: a Python set insert. -/
def addSource (failedSources : List String) (src : String) : List String :=
  if failedSources.contains src then failedSources else failedSources ++ [src]

/-- `Extractor.extract_source`: iterate over the relations of one source;
on an `ETLRuntimeError` from `extract_table` the source is added to
`self.failed_sources` and the relation to `failed`, then the loop
continues for a non-required relation, continues for a required relation
under `keep_going`, and re-raises (aborting the source's task) for a
required relation otherwise.  `fails` tells which relations' extraction
raises. -/
def extract_source (keepGoing : Bool) (sourceName : String) (fails : String → Bool) :
    List ExtractRelation → ExtractState → ExtractState
  | [], st => st
  | d :: rest, st =>
    if st.raised then st
    else if fails d.identifier then
      let st' : ExtractState :=
        { st with failedSources := addSource st.failedSources sourceName,
                  failed := st.failed ++ [d.identifier] }
      if !d.is_required then extract_source keepGoing sourceName fails rest st'
      else if keepGoing then extract_source keepGoing sourceName fails rest st'
      else { st' with raised := true }
    else extract_source keepGoing sourceName fails rest st

/-- One entry of a COPY manifest: `{"url": ..., "mandatory": true}`. -/
structure ManifestEntry where
  url : String
  mandatory : Bool
deriving DecidableEq, Repr

/-- A manifest object: `{"entries": [...]}`. -/
structure ManifestFile where
  entries : List ManifestEntry
deriving DecidableEq, Repr

/-- Errors raised by manifest publication. -/
inductive ManifestErr where
  | missingCsvFiles (msg : String)
  | valueError (msg : String)
deriving DecidableEq, Repr

/-- Does the character list `l` contain `pat` as a contiguous sublist? -/
def containsSub : List Char → List Char → Bool
  | l, pat =>
    pat.isPrefixOf l ||
      match l with
      | [] => false
      | _ :: t => containsSub t pat

/-- Python's `pat in s` substring test. -/
def hasSubstr (s pat : String) : Bool := containsSub s.data pat.data

/-- Python's `s.endswith(pat)`. -/
def strEndsWith (s pat : String) : Bool := pat.data.isSuffixOf s.data

/-- Lexicographic comparison of character lists by code point, Python's
string ordering. -/
def listLe : List Char → List Char → Bool
  | [], _ => true
  | _ :: _, [] => false
  | a :: as, b :: bs =>
    if a.toNat < b.toNat then true
    else if b.toNat < a.toNat then false
    else listLe as bs

/-- Python's `a <= b` on strings. -/
def strLe (a b : String) : Bool := listLe a.data b.data

/-- Insert a string into a sorted list (for Python's `sorted`). -/
def insertSorted (x : String) : List String → List String
  | [] => [x]
  | y :: ys => if strLe x y then x :: y :: ys else y :: insertSorted x ys

/-- Python's `sorted` on a list of strings. -/
def sortStrings (l : List String) : List String := l.foldr insertSorted []

/-- Result of `Extractor.write_manifest_file`: whether the missing-marker
warning was emitted and the manifest that was written to S3 (`none` on a
dry run, where the write is skipped). -/
structure WriteManifestResult where
  warnedMissingMarker : Bool
  written : Option ManifestFile
deriving DecidableEq, Repr

/-- `Extractor.write_manifest_file`: check the `_SUCCESS` marker (absent
marker: warn on dry run, else `MissingCsvFilesError`); list the keys below
the prefix and keep those containing `"part"` and ending in `".gz"`,
sorted; zero files outside a dry run is `MissingCsvFilesError`; build one
`mandatory=true` entry per file and upload the manifest unless this is a
dry run.  `markerPresent` is the result of the (possibly waiting)
`get_s3_object_last_modified` call and `listing` the S3 listing of the
prefix. -/
def extractor_write_manifest_file (dryRun markerPresent : Bool)
    (sourceBucket : String) (listing : List String) :
    Except ManifestErr WriteManifestResult :=
  let warned := !markerPresent && dryRun
  if !markerPresent && !dryRun then
    .error (.missingCsvFiles "No valid CSV files (_SUCCESS is missing)")
  else
    let csvFiles := sortStrings (listing.filter
      (fun key => hasSubstr key "part" && strEndsWith key ".gz"))
    if csvFiles.length = 0 && !dryRun then
      .error (.missingCsvFiles "Found no CSV files")
    else
      let remoteFiles := csvFiles.map (fun f => "s3://" ++ sourceBucket ++ "/" ++ f)
      let manifest : ManifestFile := ⟨remoteFiles.map (fun n => ⟨n, true⟩)⟩
      if dryRun then .ok ⟨warned, none⟩
      else .ok ⟨warned, some manifest⟩

/-! ## `write_manifest_file` (`etl/s3.py`) -/

/-- Python's `str.rfind`: highest index at which `pat` occurs in `s`, or
`-1` when it does not occur. -/
def pyRfind (s pat : String) : Int :=
  match ((List.range (s.data.length + 1)).filter
      (fun i => pat.data.isPrefixOf (s.data.drop i))).getLast? with
  | some i => (i : Int)
  | none => -1

/-- Python's slice `s[:i]`, including the negative-index convention. -/
def pySliceTo (s : String) (i : Int) : String :=
  if 0 ≤ i then ⟨s.data.take i.toNat⟩ else ⟨s.data.take (s.data.length - (-i).toNat)⟩

/-- Character-wise longest common prefix of two strings. -/
def commonPrefixChars : List Char → List Char → List Char
  | x :: xs, y :: ys => if x = y then x :: commonPrefixChars xs ys else []
  | _, _ => []

/-- `os.path.commonprefix` on a list of strings. -/
def commonPrefixAll : List String → String
  | [] => ""
  | s :: rest => rest.foldl (fun acc t => ⟨commonPrefixChars acc.data t.data⟩) s

/-- `os.path.basename`: the part after the last `/`. -/
def basename (s : String) : String :=
  ⟨s.data.foldl (fun acc c => if c = '/' then [] else acc ++ [c]) []⟩

/-- Result of `etl.s3.write_manifest_file`: the name of the manifest file,
the manifest object, and whether it was actually written (false on a dry
run). -/
structure S3WriteManifestResult where
  filename : String
  manifest : ManifestFile
  written : Bool
deriving DecidableEq, Repr

/-- `etl.s3.write_manifest_file(local_files, bucket_name, prefix,
dry_run)`: drop `.manifest` files, fail on an empty list, derive the
manifest's file name from the common prefix (or the single CSV file), and
build one `mandatory=true` entry per data file with URL
`s3://bucket/prefix/basename`; the JSON file is only written outside a dry
run. -/
def s3_write_manifest_file (localFiles : List String) (bucketName prefixDir : String)
    (dryRun : Bool) : Except ManifestErr S3WriteManifestResult :=
  let dataFiles := localFiles.filter (fun f => !(strEndsWith f ".manifest"))
  if dataFiles.length = 0 then
    .error (.valueError "List of files must include at least one CSV file")
  else
    let filename :=
      if dataFiles.length > 1 then
        let parts := commonPrefixAll dataFiles
        pySliceTo parts (pyRfind parts ".part_") ++ ".manifest"
      else
        let csvFile := dataFiles.headD ""
        pySliceTo csvFile (pyRfind csvFile ".csv") ++ ".csv.manifest"
    let remoteFiles := dataFiles.map
      (fun n => "s3://" ++ bucketName ++ "/" ++ prefixDir ++ "/" ++ basename n)
    let manifest : ManifestFile := ⟨remoteFiles.map (fun n => ⟨n, true⟩)⟩
    .ok ⟨filename, manifest, !dryRun⟩

/-! ## Dependency & selection resolver (`etl/load.py` and, for the parts
of `etl/relation.py` that are not in the sources, the specification) -/

/-- The attributes of a `RelationDescription` that the resolver and the
load orchestrator inspect: identifier (`schema.table`), declared
dependencies, target schema, the required flag, and whether the relation
is a view (views are never marked modified for the vacuum pass). -/
structure Relation where
  identifier : String
  dependencies : List String
  schema : String
  is_required : Bool
  is_view : Bool
deriving DecidableEq, Repr

/-- Errors raised while resolving the execution order: the
`CyclicDependencyError` of `order_by_dependencies` and the `ValueError`s
of `evaluate_execution_order`. -/
inductive ResolveErr where
  | cyclicDependency (identifier : String)
  | valueError (msg : String)
deriving DecidableEq, Repr

/-- Insertion into an identifier-sorted list of relations. -/
def insertRelationSorted (r : Relation) : List Relation → List Relation
  | [] => [r]
  | s :: rest =>
    if strLe r.identifier s.identifier then r :: s :: rest
    else s :: insertRelationSorted r rest

/-- Stable sort of relations by identifier, the deterministic tie-break of
the topological sort. -/
def sortRelationsByIdentifier (l : List Relation) : List Relation :=
  l.foldr insertRelationSorted []

/-- A relation is ready to be emitted when each of its dependencies is
either already emitted or not present among the remaining relations
(unknown dependencies are treated as already-satisfied externals). -/
def relationReady (emittedIds : List String) (remaining : List Relation)
    (r : Relation) : Bool :=
  r.dependencies.all
    (fun d => emittedIds.contains d || !(remaining.map Relation.identifier).contains d)

/-- Kahn-style emission loop: repeatedly emit the identifier-least ready
relation; a stall with relations remaining is a cyclic dependency. -/
def kahnLoop : Nat → List Relation → List String → List Relation →
    Except ResolveErr (List Relation)
  | 0, remaining, _, acc =>
    match remaining with
    | [] => .ok acc
    | r :: _ => .error (.cyclicDependency r.identifier)
  | fuel + 1, remaining, emittedIds, acc =>
    match remaining with
    | [] => .ok acc
    | r0 :: _ =>
      match (remaining.filter (relationReady emittedIds remaining)).head? with
      | none => .error (.cyclicDependency r0.identifier)
      | some r =>
        kahnLoop fuel (remaining.erase r) (emittedIds ++ [r.identifier]) (acc ++ [r])

/-- Modelled from the spec: `orderByDependencies` of the missing module
`etl/relation.py` — a topological sort (Kahn's algorithm) over the
declared dependency edges restricted to identifiers present in the input,
unknown dependencies ignored, ties broken deterministically by stable
sort on identifier, raising `CyclicDependencyError` naming a relation
when no valid order exists. -/
def order_by_dependencies (relations : List Relation) :
    Except ResolveErr (List Relation) :=
  kahnLoop relations.length (sortRelationsByIdentifier relations) [] []

/-- Modelled from the spec: `findMatches` of the missing module
`etl/relation.py` — the relations whose target identifier matches the
selector, preserving order. -/
def find_matches (order : List Relation) (selector : String → Bool) : List Relation :=
  order.filter (fun r => selector r.identifier)

/-- One step of the dependents fixed point: add every relation whose
dependencies intersect the accumulated set. -/
def dependentStep (order : List Relation) (acc : List String) : List String :=
  acc ++ (order.filter
    (fun r => !acc.contains r.identifier && r.dependencies.any acc.contains)).map
      Relation.identifier

/-- Iterate `dependentStep` to its fixed point (bounded by the fuel). -/
def dependentClosure (order : List Relation) : Nat → List String → List String
  | 0, acc => acc
  | fuel + 1, acc =>
    let next := dependentStep order acc
    if next.length = acc.length then acc else dependentClosure order fuel next

/-- Modelled from the spec: `findDependents` of the missing module
`etl/relation.py` — the fixed-point of "add any relation whose
dependencies intersect the accumulated set", excluding the seeds
themselves, as a subsequence of `order`. -/
def find_dependents (order : List Relation) (seeds : List Relation) : List Relation :=
  let seedIds := seeds.map Relation.identifier
  let closure := dependentClosure order order.length seedIds
  order.filter (fun r => closure.contains r.identifier && !seedIds.contains r.identifier)

/-- Deduplicating insert for modelling Python sets as lists. -/
def addToSet (acc : List String) (x : String) : List String :=
  if acc.contains x then acc else acc ++ [x]

/-- Deduplicate a list (first occurrence wins), modelling a Python set
comprehension with a deterministic iteration order. -/
def listToSet (l : List String) : List String := l.foldl addToSet []

/-- The tail of `evaluate_execution_order` shared by both branches:
compute the schemas of the dirty relations, widen to whole schemas when
requested, and filter the complete sequence down to the dirty set. -/
def finishEvaluation (completeSequence : List Relation) (dirty : List String)
    (wholeSchemas : Bool) : List Relation × List String :=
  let dirtySchemas := listToSet
    ((completeSequence.filter (fun r => dirty.contains r.identifier)).map Relation.schema)
  let dirty2 :=
    if wholeSchemas then
      dirty ++ (completeSequence.filter
        (fun r => dirtySchemas.contains r.schema)).map Relation.identifier
    else dirty
  (completeSequence.filter (fun r => dirty2.contains r.identifier), dirtySchemas)

/-- `evaluate_execution_order(relations, selector, only_first,
whole_schemas)` from `etl/load.py`: order the relations by dependencies,
select the matches; with `only_first` require exactly one match (else
`ValueError`) and reject the combination with `whole_schemas`
(`ValueError`), skipping dependent propagation; otherwise add all
transitive dependents.  Then compute the dirty schemas, widen to entire
schemas when requested, and return the worklist in execution order
together with the schemas. -/
def evaluate_execution_order (relations : List Relation) (selector : String → Bool)
    (onlyFirst wholeSchemas : Bool) :
    Except ResolveErr (List Relation × List String) :=
  match order_by_dependencies relations with
  | .error e => .error e
  | .ok completeSequence =>
    let selected := find_matches completeSequence selector
    let dirty := selected.map Relation.identifier
    if onlyFirst then
      if selected.length ≠ 1 then
        .error (.valueError "Bad selector, should result in single table being selected")
      else if wholeSchemas then
        .error (.valueError "Cannot elect to pick both, entire schemas and only first relation")
      else
        .ok (finishEvaluation completeSequence dirty wholeSchemas)
    else
      .ok (finishEvaluation completeSequence
        (dirty ++ (find_dependents completeSequence selected).map Relation.identifier)
        wholeSchemas)

/-! ## Load transaction orchestrator (`etl/load.py`, `load_or_update_redshift`) -/

/-- Exceptions escaping the per-relation worklist loop: the
`RequiredRelationLoadError` raised in whole-schema mode (its two fields
hold the constructor arguments exactly as passed at the raise site,
`relation.identifier` and the list of required dependents), or the
original per-relation exception re-raised in non-whole-schema mode. -/
inductive LoadError where
  | requiredRelationLoad (failed_relations : String) (bad_apple : List String)
  | relationLoad (identifier : String)
deriving DecidableEq, Repr

/-- How one worklist iteration ended, for the run report. -/
inductive LoadStatus where
  | loaded
  | skipped
  | failedSkipDependents
  | failedFatal
deriving DecidableEq, Repr

/-- State threaded through the worklist loop of `load_or_update_redshift`:
the `skip_after_fail` set, the `vacuum_ready` list, a report of how each
iteration ended, and the exception escaping the loop, if any. -/
structure LoadState where
  skipAfterFail : List String
  vacuumReady : List String
  report : List (String × LoadStatus)
  result : Option LoadError
deriving DecidableEq, Repr

/-- The identifiers of the required relations among the transitive
dependents of `r` within the worklist (`failed_and_required` in the
source). -/
def requiredDependentIds (executionOrder : List Relation) (r : Relation) : List String :=
  ((find_dependents executionOrder [r]).filter (fun s => s.is_required)).map
    Relation.identifier

/-- The `for i, relation in enumerate(execution_order)` loop of
`load_or_update_redshift`.  A relation in the skip set is skipped with a
warning; a failing load in whole-schema mode either raises
`RequiredRelationLoadError(relation.identifier, failed_and_required)`
when the relation or any of its transitive dependents in the worklist is
required, or adds every dependent to the skip set and continues; in
non-whole-schema mode the original exception is re-raised.  A successful
load of a non-view relation is recorded for the vacuum pass.  `fails`
tells which relations' load raises. -/
def loadLoop (executionOrder : List Relation) (wholeSchemas : Bool)
    (fails : String → Bool) : List Relation → LoadState → LoadState
  | [], st => st
  | r :: rest, st =>
    if st.result.isSome then st
    else if st.skipAfterFail.contains r.identifier then
      loadLoop executionOrder wholeSchemas fails rest
        { st with report := st.report ++ [(r.identifier, .skipped)] }
    else if fails r.identifier then
      if wholeSchemas then
        let failedAndRequired := requiredDependentIds executionOrder r
        if r.is_required || !failedAndRequired.isEmpty then
          { st with report := st.report ++ [(r.identifier, .failedFatal)],
                    result := some (.requiredRelationLoad r.identifier failedAndRequired) }
        else
          loadLoop executionOrder wholeSchemas fails rest
            { st with skipAfterFail := st.skipAfterFail ++
                        (find_dependents executionOrder [r]).map Relation.identifier,
                      report := st.report ++ [(r.identifier, .failedSkipDependents)] }
      else
        { st with report := st.report ++ [(r.identifier, .failedFatal)],
                  result := some (.relationLoad r.identifier) }
    else
      loadLoop executionOrder wholeSchemas fails rest
        { st with vacuumReady := st.vacuumReady ++
                    (if r.is_view then [] else [r.identifier]),
                  report := st.report ++ [(r.identifier, .loaded)] }

/-- Observable outcome of one `load_or_update_redshift` run. -/
structure LoadRunResult where
  worklist : List Relation
  backupTaken : Bool
  loopState : LoadState
  restored : Bool
  raised : Option LoadError
  vacuumed : List String
deriving DecidableEq, Repr

/-- `load_or_update_redshift` from `etl/load.py`: compute the execution
order (`whole_schemas = drop and not stop_after_first`); in whole-schema
mode back up and recreate the involved schemas (skipped on a dry run);
run the worklist loop; on an exception escaping the loop restore the
schemas from their backups on a fresh connection — unless this is a dry
run or `no_rollback` is set — and re-raise; on success vacuum the
modified relations unless `drop` is set. -/
def load_or_update_redshift (relations : List Relation) (selector : String → Bool)
    (fails : String → Bool) (drop stopAfterFirst noRollback dryRun : Bool) :
    Except ResolveErr LoadRunResult :=
  let wholeSchemas := drop && !stopAfterFirst
  match evaluate_execution_order relations selector stopAfterFirst wholeSchemas with
  | .error e => .error e
  | .ok (executionOrder, _involvedSchemas) =>
    let st := loadLoop executionOrder wholeSchemas fails executionOrder ⟨[], [], [], none⟩
    match st.result with
    | some e =>
      .ok { worklist := executionOrder,
            backupTaken := wholeSchemas && !dryRun,
            loopState := st,
            restored := wholeSchemas && !dryRun && !noRollback,
            raised := some e,
            vacuumed := [] }
    | none =>
      .ok { worklist := executionOrder,
            backupTaken := wholeSchemas && !dryRun,
            loopState := st,
            restored := false,
            raised := none,
            vacuumed := if !st.vacuumReady.isEmpty && !drop then st.vacuumReady else [] }

/-! ## Constraint verification (`etl/load.py`, `verify_constraints`) -/

/-- A table row restricted to the columns the duplicate-detection query
projects: a mapping from column name to its value, `none` being SQL NULL. -/
def Row := String → Option String

/-- One declared constraint of a table design: its type key and column
list (each constraint dictionary has a single key, over which the source
"iterates"). -/
structure Constraint where
  ctype : String
  columns : List String
deriving DecidableEq, Repr

/-- The WHERE condition of the duplicate-detection query: for a
`"unique"` constraint the conjunction `"col" IS NOT NULL AND …` over the
declared columns, for every other constraint type the literal `TRUE`. -/
def constraintCondition (ctype : String) (columns : List String) (row : Row) : Bool :=
  if ctype = "unique" then columns.all (fun c => (row c).isSome) else true

/-- First-occurrence deduplication of value tuples (the `DISTINCT` of the
query). -/
def dedupKeys (seen : List (List (Option String))) :
    List (List (Option String)) → List (List (Option String))
  | [] => []
  | k :: rest =>
    if seen.contains k then dedupKeys seen rest
    else k :: dedupKeys (seen ++ [k]) rest

/-- Semantics of the statement template
`SELECT DISTINCT {columns} FROM {table} WHERE {condition} GROUP BY
{columns} HAVING COUNT(*) > 1 LIMIT 5`: restrict to rows satisfying the
condition, group them by the tuple of declared column values (SQL `GROUP
BY` groups NULLs together), keep the value tuples occurring more than
once, and return at most 5 of them. -/
def dupGroups (rows : List Row) (ctype : String) (columns : List String) :
    List (List (Option String)) :=
  let filtered := rows.filter (fun row => constraintCondition ctype columns row)
  let keys := filtered.map (fun row => columns.map row)
  ((dedupKeys [] keys).filter (fun k => keys.count k > 1)).take 5

/-- The data carried by `FailedConstraintError.__init__`. -/
structure FailedConstraint where
  identifier : String
  constraint_type : String
  columns : List String
  examples : List (List (Option String))
deriving DecidableEq, Repr

/-- The constraint loop of `verify_constraints`: for each declared
constraint run the duplicate-detection query (dry runs only log) and
raise `FailedConstraintError(relation, constraint_type, columns,
results)` on the first non-empty result. -/
def verifyLoop (identifier : String) (rows : List Row) (dryRun : Bool) :
    List Constraint → Option FailedConstraint
  | [] => none
  | c :: rest =>
    if dryRun then verifyLoop identifier rows dryRun rest
    else
      let results := dupGroups rows c.ctype c.columns
      if results.isEmpty then verifyLoop identifier rows dryRun rest
      else some ⟨identifier, c.ctype, c.columns, results⟩

/-- `verify_constraints(conn, relation, dry_run)` from `etl/load.py`:
return immediately when the design declares no constraints, otherwise run
the constraint loop over the relation's rows. -/
def verify_constraints (identifier : String)
    (constraints : Option (List Constraint)) (rows : List Row) (dryRun : Bool) :
    Option FailedConstraint :=
  match constraints with
  | none => none
  | some cs => verifyLoop identifier rows dryRun cs

/-- A row of the single-column example table: `email` holds `v`,
anything else NULL. -/
def emailRow (v : Option String) : Row := fun c => if c = "email" then v else none

/-- The example table of spec property 6: two equal non-null e-mails and
one NULL e-mail. -/
def exampleEmailRows : List Row :=
  [emailRow (some "a@b"), emailRow (some "a@b"), emailRow none]

/-- A store of manifest objects keyed by file name (the local filesystem
for `etl.s3.write_manifest_file`, S3 for the extractor); `json.dump` and
`json.load` are the external serialization pair, so objects are stored as
values. -/
def ManifestStore := String → Option ManifestFile

/-- Writing a manifest object into a store. -/
def storePut (store : ManifestStore) (key : String) (m : ManifestFile) : ManifestStore :=
  fun k => if k = key then some m else store k

/-- Reading a manifest object back from a store. -/
def storeGet (store : ManifestStore) (key : String) : Option ManifestFile := store key

end ETL

/-! ## Theorems -/

namespace ETL

/-- **C3.** For every `maxRetries ≥ 0` and every operation: a permanent
(non-transient) error — at whatever attempt `i ≤ maxRetries` it is
reached, after `i` transient failures — is re-raised immediately, with
exactly the `i` sleeps already performed for the preceding transient
attempts and no further sleep or retry; if every attempt fails
transiently the result is `RetriesExhaustedError` chained from the last
transient cause (the final attempt) after sleeping `5^1, …,
5^maxRetries`; the result only depends on the operation's behaviour on
attempts `0 … maxRetries` (at most `maxRetries` additional attempts are
performed); and the concrete scenario of two transient failures followed
by success on attempt 3 with `maxAttempts = 3` returns the successful
result after exactly the two strictly increasing sleeps `5 < 25`. -/
theorem retry_spec :
    (∀ (f : Nat → Outcome) (maxRetries i : Nat), i ≤ maxRetries →
      (∀ j < i, f j = .transient) → f i = .permanent →
      retry f maxRetries =
        (.permanentRaise i, (List.range i).map (fun j => 5 ^ (j + 1)))) ∧
    (∀ (f : Nat → Outcome) (maxRetries : Nat), (∀ i, f i = .transient) →
      retry f maxRetries =
        (.exhausted (some maxRetries), (List.range maxRetries).map (fun i => 5 ^ (i + 1)))) ∧
    (∀ (f g : Nat → Outcome) (maxRetries : Nat), (∀ i ≤ maxRetries, f i = g i) →
      retry f maxRetries = retry g maxRetries) ∧
    (retry (fun i => if i < 2 then .transient else .success 42) 3 = (.ok 42, [5, 25]) ∧
      5 < 25) := by
  refine ⟨?_, ?_, ?_, by decide, by norm_num⟩
  · intro f maxRetries i hile htrans hperm
    suffices H : ∀ i a fuel sleeps lastFailure, a + fuel = maxRetries + 1 → i < fuel →
        (∀ j < i, f (a + j) = .transient) → f (a + i) = .permanent →
        retryLoop f maxRetries a fuel sleeps lastFailure =
          (.permanentRaise (a + i),
           sleeps ++ (List.range i).map (fun j => 5 ^ (a + j + 1))) by
      have := H i 0 (maxRetries + 1) [] none (by omega) (by omega)
        (by intro j hj; simpa using htrans j hj) (by simpa using hperm)
      simpa [retry] using this
    intro i
    induction i with
    | zero =>
      intro a fuel sleeps lastFailure hsum hlt htrans0 hperm0
      obtain ⟨n, rfl⟩ : ∃ n, fuel = n + 1 := ⟨fuel - 1, by omega⟩
      rw [retryLoop]
      have hfa : f a = .permanent := hperm0
      rw [hfa]
      simp
    | succ m ih =>
      intro a fuel sleeps lastFailure hsum hlt htransS hpermS
      obtain ⟨n, rfl⟩ : ∃ n, fuel = n + 1 := ⟨fuel - 1, by omega⟩
      rw [retryLoop]
      have hfa : f a = .transient := htransS 0 (by omega)
      rw [hfa]
      have hrem : maxRetries - a ≠ 0 := by omega
      simp only [hrem, if_true, ne_eq, not_false_iff]
      rw [ih (a + 1) n (sleeps ++ [5 ^ (a + 1)]) (some a) (by omega) (by omega)
        (by intro j hj
            have h := htransS (j + 1) (by omega)
            rw [show a + (j + 1) = a + 1 + j by omega] at h
            exact h)
        (by rw [show a + 1 + m = a + (m + 1) by omega]; exact hpermS)]
      have hidx : a + 1 + m = a + (m + 1) := by omega
      rw [hidx, List.append_assoc]
      refine congrArg _ ?_
      refine congrArg _ ?_
      simp only [List.range_succ_eq_map, List.map_cons, List.singleton_append,
        List.map_map]
      refine congrArg₂ _ (by rw [Nat.add_zero]) (List.map_congr_left ?_)
      intro j _
      simp [Function.comp]
      ring_nf
  · intro f maxRetries h
    suffices H : ∀ fuel attempt sleeps lastFailure, attempt + fuel = maxRetries + 1 →
        retryLoop f maxRetries attempt fuel sleeps lastFailure =
          (.exhausted (if fuel = 0 then lastFailure else some maxRetries),
           sleeps ++ (List.range (fuel - 1)).map (fun i => 5 ^ (attempt + i + 1))) by
      have := H (maxRetries + 1) 0 [] none (by omega)
      simpa [retry] using this
    intro fuel
    induction fuel with
    | zero => intro attempt sleeps lastFailure _; simp [retryLoop]
    | succ n ih =>
      intro attempt sleeps lastFailure hsum
      rw [retryLoop]
      rw [h attempt]
      rcases Nat.eq_zero_or_pos n with hn | hn
      · subst hn
        have : maxRetries - attempt = 0 := by omega
        simp [this, retryLoop, show attempt = maxRetries by omega]
      · have hrem : maxRetries - attempt ≠ 0 := by omega
        simp only [hrem, if_true, ne_eq, not_false_iff]
        rw [ih (attempt + 1) (sleeps ++ [5 ^ (attempt + 1)]) (some attempt) (by omega)]
        have hn' : ¬ n = 0 := by omega
        simp only [hn', if_false]
        refine congrArg _ ?_
        obtain ⟨m, hm⟩ : ∃ m, n = m + 1 := ⟨n - 1, by omega⟩
        subst hm
        rw [List.append_assoc]
        refine congrArg _ ?_
        simp only [Nat.add_sub_cancel, List.range_succ_eq_map, List.map_cons,
          List.singleton_append, List.map_map]
        refine congrArg _ (List.map_congr_left ?_)
        intro i _
        simp [Function.comp]
        ring_nf
  · intro f g maxRetries h
    suffices H : ∀ fuel attempt sleeps lastFailure, attempt + fuel = maxRetries + 1 →
        retryLoop f maxRetries attempt fuel sleeps lastFailure =
          retryLoop g maxRetries attempt fuel sleeps lastFailure by
      simpa [retry] using H (maxRetries + 1) 0 [] none (by omega)
    intro fuel
    induction fuel with
    | zero => intro attempt sleeps lastFailure _; rfl
    | succ n ih =>
      intro attempt sleeps lastFailure hsum
      rw [retryLoop, retryLoop, h attempt (by omega)]
      cases g attempt with
      | success v => rfl
      | permanent => rfl
      | transient =>
        simp only
        split
        · exact ih (attempt + 1) _ _ (by omega)
        · exact ih (attempt + 1) _ _ (by omega)

/-- Witness for C3: instantiate each hypothesis-bearing conjunct of
`retry_spec` at concrete inputs — a permanent error on the first
attempt, a permanent error on attempt 1 after a transient failure on
attempt 0 (one sleep, then an immediate re-raise), an all-transient
operation, and the extensionality conjunct. -/
theorem retry_spec_witness :
    retry (fun _ => .permanent) 2 = (.permanentRaise 0, []) ∧
    retry (fun i => if i = 0 then .transient else .permanent) 3 =
      (.permanentRaise 1, [5]) ∧
    retry (fun _ => .transient) 2 = (.exhausted (some 2), [5, 25]) ∧
    retry (fun i => if i ≤ 2 then .transient else .success 7) 2 =
      retry (fun _ => .transient) 2 := by
  refine ⟨?_, ?_, ?_, ?_⟩
  · have := retry_spec.1 (fun _ => .permanent) 2 0 (Nat.zero_le _)
      (fun j hj => absurd hj (Nat.not_lt_zero j)) rfl
    simpa using this
  · have := retry_spec.1 (fun i => if i = 0 then .transient else .permanent) 3 1
      (by omega)
      (by intro j hj
          have hj0 : j = 0 := by omega
          subst hj0
          rfl)
      rfl
    simpa using this
  · have := retry_spec.2.1 (fun _ => .transient) 2 (fun _ => rfl)
    simpa using this
  · exact retry_spec.2.2.1 _ _ 2 (by intro i hi; simp [Nat.lt_succ_iff, hi])

/-- **C10.** `copy_data` raises `MissingManifestError` if and only if the
relation has no manifest and both `dry_run` and `skip_copy` are false;
with `skip_copy = True` it returns without raising and executes no
warehouse statements at all, even when the manifest is absent. -/
theorem copy_data_spec (hasManifest skipCopy dryRun : Bool) (dbRaises : CopyStmt → Bool) :
    ((copy_data hasManifest skipCopy dryRun dbRaises).2 = .missingManifest ↔
      (hasManifest = false ∧ dryRun = false ∧ skipCopy = false)) ∧
    (skipCopy = true → dryRun = false →
      copy_data hasManifest skipCopy dryRun dbRaises = ([], .ok)) := by
  constructor
  · cases hasManifest <;> cases skipCopy <;> cases dryRun <;>
      simp [copy_data, runCopyStmts] <;>
      cases h1 : dbRaises .deleteFrom <;> cases h2 : dbRaises .copyFromManifest <;>
        cases h3 : dbRaises .lastCopyCount <;> simp [runCopyStmts, h1, h2, h3]
  · intro hs hd
    subst hs; subst hd
    simp [copy_data]

/-! ### Lemmas about `extract_source` -/

theorem extract_source_raised_stall (keepGoing : Bool) (src : String) (fails : String → Bool)
    (l : List ExtractRelation) (st : ExtractState) (h : st.raised = true) :
    extract_source keepGoing src fails l st = st := by
  cases l with
  | nil => rfl
  | cons d rest => rw [extract_source, h]; simp

theorem extract_source_append (keepGoing : Bool) (src : String) (fails : String → Bool)
    (pre post : List ExtractRelation) (st : ExtractState) :
    extract_source keepGoing src fails (pre ++ post) st =
      extract_source keepGoing src fails post (extract_source keepGoing src fails pre st) := by
  induction pre generalizing st with
  | nil => rfl
  | cons d rest ih =>
    rw [List.cons_append, extract_source, extract_source]
    rcases hr : st.raised with _ | _
    · simp only [Bool.false_eq_true, if_false]
      split
      · split
        · exact ih _
        · split
          · exact ih _
          · rw [extract_source_raised_stall _ _ _ _ _ rfl]
      · exact ih _
    · simp [extract_source_raised_stall _ _ _ post _ hr]

theorem extract_source_failedSources_mono (keepGoing : Bool) (src x : String)
    (fails : String → Bool) (l : List ExtractRelation) (st : ExtractState)
    (h : x ∈ st.failedSources) :
    x ∈ (extract_source keepGoing src fails l st).failedSources := by
  induction l generalizing st with
  | nil => exact h
  | cons d rest ih =>
    rw [extract_source]
    have hadd : x ∈ addSource st.failedSources src := by
      unfold addSource; split
      · exact h
      · exact List.mem_append_left _ h
    split
    · exact h
    · split
      · split
        · exact ih _ hadd
        · split
          · exact ih _ hadd
          · exact hadd
      · exact ih _ h

theorem extract_source_failed_mono (keepGoing : Bool) (src x : String)
    (fails : String → Bool) (l : List ExtractRelation) (st : ExtractState)
    (h : x ∈ st.failed) :
    x ∈ (extract_source keepGoing src fails l st).failed := by
  induction l generalizing st with
  | nil => exact h
  | cons d rest ih =>
    rw [extract_source]
    split
    · exact h
    · split
      · split
        · exact ih _ (List.mem_append_left _ h)
        · split
          · exact ih _ (List.mem_append_left _ h)
          · exact List.mem_append_left _ h
      · exact ih _ h

/-- **C4 (amended).** During extraction of one source, for every relation
`d` whose `extract_table` call fails (with the loop having reached `d`
without aborting): in every case the source is recorded in the
failed-sources set and `d` in the per-source `failed` list; if `d` is not
required, processing continues with the next relations of the source; if
`d` is required and `keep_going` is set, processing likewise continues;
if `d` is required and `keep_going` is not set, the error propagates,
aborting that source's task with the remaining relations unprocessed.
(The original claim's assertion that a non-required failure leaves the
source unmarked is refuted by `extract_source_failedSources_cex`.) -/
theorem extract_source_failure_handling
    (keepGoing : Bool) (src : String) (fails : String → Bool)
    (pre post : List ExtractRelation) (d : ExtractRelation)
    (st1 st2 final : ExtractState)
    (hst1 : st1 = extract_source keepGoing src fails pre ⟨[], [], false⟩)
    (hst2 : st2 = ⟨st1.failed ++ [d.identifier], addSource st1.failedSources src, false⟩)
    (hfinal : final = extract_source keepGoing src fails (pre ++ d :: post) ⟨[], [], false⟩)
    (hreach : st1.raised = false)
    (hfail : fails d.identifier = true) :
    (src ∈ final.failedSources ∧ d.identifier ∈ final.failed) ∧
    (d.is_required = false → final = extract_source keepGoing src fails post st2) ∧
    (d.is_required = true → keepGoing = true →
      final = extract_source keepGoing src fails post st2) ∧
    (d.is_required = true → keepGoing = false → final = { st2 with raised := true }) := by
  have hstep : extract_source keepGoing src fails (pre ++ d :: post) ⟨[], [], false⟩ =
      extract_source keepGoing src fails (d :: post) st1 := by
    rw [extract_source_append, hst1]
  have hone : extract_source keepGoing src fails (d :: post) st1 =
      (if !d.is_required then extract_source keepGoing src fails post st2
       else if keepGoing then extract_source keepGoing src fails post st2
       else { st2 with raised := true }) := by
    rw [extract_source, hreach, hfail]
    simp only [Bool.false_eq_true, if_false, if_true]
    rw [hst2]
  have hsrc2 : src ∈ st2.failedSources := by
    rw [hst2]; unfold addSource; simp only
    split
    · next h => exact List.mem_of_elem_eq_true h
    · exact List.mem_append_right _ (List.mem_singleton.mpr rfl)
  have hd2 : d.identifier ∈ st2.failed := by
    rw [hst2]; exact List.mem_append_right _ (List.mem_singleton.mpr rfl)
  have hfinal' : final =
      (if !d.is_required then extract_source keepGoing src fails post st2
       else if keepGoing then extract_source keepGoing src fails post st2
       else { st2 with raised := true }) := by rw [hfinal, hstep, hone]
  refine ⟨⟨?_, ?_⟩, ?_, ?_, ?_⟩
  · rw [hfinal']
    split
    · exact extract_source_failedSources_mono _ _ _ _ _ _ hsrc2
    · split
      · exact extract_source_failedSources_mono _ _ _ _ _ _ hsrc2
      · exact hsrc2
  · rw [hfinal']
    split
    · exact extract_source_failed_mono _ _ _ _ _ _ hd2
    · split
      · exact extract_source_failed_mono _ _ _ _ _ _ hd2
      · exact hd2
  · intro h; rw [hfinal', h]; simp
  · intro h hk; rw [hfinal', h, hk]; simp
  · intro h hk; rw [hfinal', h, hk]; simp

/-- Witness for C4: one source `"src"` with the single non-required
relation `"src.t"` whose extraction fails; all four conjuncts are
instantiated, in particular the run continues and records the source. -/
theorem extract_source_failure_handling_witness :
    ("src" ∈ (extract_source false "src" (fun _ => true)
        ([] ++ ⟨"src.t", false⟩ :: []) ⟨[], [], false⟩).failedSources ∧
      "src.t" ∈ (extract_source false "src" (fun _ => true)
        ([] ++ ⟨"src.t", false⟩ :: []) ⟨[], [], false⟩).failed) ∧
    (false = false → extract_source false "src" (fun _ => true)
        ([] ++ ⟨"src.t", false⟩ :: []) ⟨[], [], false⟩ =
      extract_source false "src" (fun _ => true) [] ⟨["src.t"], ["src"], false⟩) := by
  have h := extract_source_failure_handling false "src" (fun _ => true) [] []
    ⟨"src.t", false⟩ ⟨[], [], false⟩ ⟨["src.t"], ["src"], false⟩
    (extract_source false "src" (fun _ => true) ([] ++ ⟨"src.t", false⟩ :: []) ⟨[], [], false⟩)
    rfl (by decide) rfl rfl rfl
  exact ⟨h.1, fun _ => h.2.1 rfl⟩

/-- Counterexample to C4 as stated: a failing *non-required* relation
still adds its source to the failed-sources set (`extract_source`
records the source before distinguishing the required/optional cases),
contradicting the claim that the source is not marked failed in that
case. -/
theorem extract_source_failedSources_cex :
    (extract_source false "src" (fun _ => true) [⟨"src.t", false⟩]
        ⟨[], [], false⟩).failedSources = ["src"] ∧
    (["src"] : List String) ≠ [] := by
  constructor
  · rfl
  · simp

/-! ### Lemmas about sorting and manifests -/

theorem insertSorted_length (x : String) (l : List String) :
    (insertSorted x l).length = l.length + 1 := by
  induction l with
  | nil => rfl
  | cons y ys ih =>
    rw [insertSorted]
    split
    · rfl
    · simp [ih]

theorem sortStrings_length (l : List String) : (sortStrings l).length = l.length := by
  induction l with
  | nil => rfl
  | cons y ys ih => simp [sortStrings, List.foldr] at ih ⊢; rw [insertSorted_length, ih]

/-- **C5.** `Extractor.write_manifest_file`: with the `_SUCCESS` marker
absent, a dry run warns and writes no manifest while a non-dry run raises
`MissingCsvFilesError`; with the marker present but zero partition files
(keys containing `"part"` and ending in `".gz"`) below the prefix, a
non-dry run raises `MissingCsvFilesError`; any successfully built
manifest has exactly one entry per discovered partition file with
`mandatory = true`, and it is written only when this is not a dry run. -/
theorem extractor_write_manifest_file_spec (dryRun markerPresent : Bool)
    (bkt : String) (listing : List String) :
    (markerPresent = false → dryRun = true →
      extractor_write_manifest_file dryRun markerPresent bkt listing = .ok ⟨true, none⟩) ∧
    (markerPresent = false → dryRun = false →
      extractor_write_manifest_file dryRun markerPresent bkt listing =
        .error (.missingCsvFiles "No valid CSV files (_SUCCESS is missing)")) ∧
    (markerPresent = true → dryRun = false →
      listing.filter (fun key => hasSubstr key "part" && strEndsWith key ".gz") = [] →
      extractor_write_manifest_file dryRun markerPresent bkt listing =
        .error (.missingCsvFiles "Found no CSV files")) ∧
    (∀ r, extractor_write_manifest_file dryRun markerPresent bkt listing = .ok r →
      (r.written.isSome ↔ dryRun = false) ∧
      ∀ m, r.written = some m →
        m.entries = (sortStrings (listing.filter
            (fun key => hasSubstr key "part" && strEndsWith key ".gz"))).map
          (fun f => ⟨"s3://" ++ bkt ++ "/" ++ f, true⟩) ∧
        m.entries.length = (listing.filter
          (fun key => hasSubstr key "part" && strEndsWith key ".gz")).length ∧
        ∀ e ∈ m.entries, e.mandatory = true) := by
  refine ⟨?_, ?_, ?_, ?_⟩
  · intro hm hd; subst hm; subst hd
    rw [extractor_write_manifest_file]
    simp
  · intro hm hd; subst hm; subst hd
    rw [extractor_write_manifest_file]
    simp
  · intro hm hd hempty; subst hm; subst hd
    rw [extractor_write_manifest_file]
    simp [hempty, sortStrings]
  · cases markerPresent <;> cases dryRun <;> intro r hr <;>
      rw [extractor_write_manifest_file] at hr <;> simp at hr
    · obtain rfl := hr.symm
      refine ⟨by simp, ?_⟩
      intro m hmeq; exact absurd hmeq (by simp)
    · split at hr
      · exact absurd hr (by simp)
      · rw [Except.ok.injEq] at hr
        obtain rfl := hr
        refine ⟨by simp, ?_⟩
        intro m hmeq
        obtain rfl : (⟨((sortStrings (listing.filter
            (fun key => hasSubstr key "part" && strEndsWith key ".gz"))).map
              (fun f => "s3://" ++ bkt ++ "/" ++ f)).map
                (fun n => ⟨n, true⟩)⟩ : ManifestFile) = m := by
          simpa using hmeq
        refine ⟨?_, ?_, ?_⟩
        · simp only [List.map_map]; rfl
        · simp only [List.map_map, List.length_map, sortStrings_length]
        · intro e he
          simp only [List.map_map, List.mem_map] at he
          obtain ⟨f, _, rfl⟩ := he
          rfl
    · obtain rfl := hr.symm
      refine ⟨by simp, ?_⟩
      intro m hmeq; exact absurd hmeq (by simp)

/-- Witness for C5: on a dry run with the `_SUCCESS` marker missing, the
function warns and writes nothing; with the marker present, one `"part"`
file and no dry run, the written manifest holds exactly that file's URL
with `mandatory = true`. -/
theorem extractor_write_manifest_file_spec_witness :
    extractor_write_manifest_file true false "bkt" ["d/part-0.gz"] = .ok ⟨true, none⟩ ∧
    ∀ m, (⟨false, some ⟨[⟨"s3://bkt/d/part-0.gz", true⟩]⟩⟩ : WriteManifestResult).written
        = some m →
      m.entries = (sortStrings (["d/part-0.gz"].filter
          (fun key => hasSubstr key "part" && strEndsWith key ".gz"))).map
        (fun f => ⟨"s3://" ++ "bkt" ++ "/" ++ f, true⟩) ∧
      m.entries.length = (["d/part-0.gz"].filter
        (fun key => hasSubstr key "part" && strEndsWith key ".gz")).length ∧
      ∀ e ∈ m.entries, e.mandatory = true := by
  constructor
  · exact (extractor_write_manifest_file_spec true false "bkt" ["d/part-0.gz"]).1 rfl rfl
  · intro m hm
    refine ((extractor_write_manifest_file_spec false true "bkt" ["d/part-0.gz"]).2.2.2
      ⟨false, some ⟨[⟨"s3://bkt/d/part-0.gz", true⟩]⟩⟩ (by rfl)).2 m hm

/-- **C8.** `etl.s3.write_manifest_file` on a non-empty list of data files
(none of them a `.manifest` file) succeeds and produces a manifest with
exactly one entry per data file, in order, whose URL is
`s3://bucket/prefix/<basename>` with `mandatory = true` and nothing else;
writing the manifest into a store under the computed file name and
reading it back yields exactly those entries. -/
theorem s3_write_manifest_file_spec (files : List String) (bkt pfx : String)
    (dryRun : Bool) (store : ManifestStore)
    (hne : files ≠ [])
    (hdata : ∀ f ∈ files, strEndsWith f ".manifest" = false) :
    ∃ r, s3_write_manifest_file files bkt pfx dryRun = .ok r ∧
      r.manifest.entries = files.map
        (fun f => ⟨"s3://" ++ bkt ++ "/" ++ pfx ++ "/" ++ basename f, true⟩) ∧
      (∀ e ∈ r.manifest.entries, e.mandatory = true) ∧
      r.written = !dryRun ∧
      storeGet (storePut store r.filename r.manifest) r.filename = some r.manifest := by
  have hfilter : files.filter (fun f => !(strEndsWith f ".manifest")) = files := by
    rw [List.filter_eq_self]
    intro a ha
    simp [hdata a ha]
  rw [s3_write_manifest_file]
  rw [hfilter]
  have hlen : ¬ files.length = 0 := by
    intro h; exact hne (List.eq_nil_of_length_eq_zero h)
  simp only [hlen, if_false]
  refine ⟨_, rfl, ?_, ?_, rfl, ?_⟩
  · simp only [List.map_map]; rfl
  · intro e he
    simp only [List.map_map, List.mem_map] at he
    obtain ⟨f, _, rfl⟩ := he
    rfl
  · simp [storeGet, storePut]

/-- Witness for C8: the files `["part_000.gz", "part_001.gz"]` under
bucket `bkt` and prefix `p` produce the two URLs `s3://bkt/p/part_000.gz`
and `s3://bkt/p/part_001.gz`, both mandatory, and the store round-trip
returns them. -/
theorem s3_write_manifest_file_spec_witness :
    ∃ r, s3_write_manifest_file ["part_000.gz", "part_001.gz"] "bkt" "p" false = .ok r ∧
      r.manifest.entries = ["part_000.gz", "part_001.gz"].map
        (fun f => ⟨"s3://" ++ "bkt" ++ "/" ++ "p" ++ "/" ++ basename f, true⟩) ∧
      (∀ e ∈ r.manifest.entries, e.mandatory = true) ∧
      r.written = !false ∧
      storeGet (storePut (fun _ => none) r.filename r.manifest) r.filename =
        some r.manifest := by
  refine s3_write_manifest_file_spec ["part_000.gz", "part_001.gz"] "bkt" "p" false
    (fun _ => none) (by simp) ?_
  intro f hf
  simp only [List.mem_cons, List.mem_singleton, List.not_mem_nil, or_false] at hf
  rcases hf with rfl | rfl
  · rfl
  · rfl

/-! ### Lemmas and theorems about the resolver -/

/-- Example relation `A` (no dependencies) of spec property 4. -/
def exampleA : Relation := ⟨"s.a", [], "s", false, false⟩

/-- Example relation `B` (depends on `A`) of spec property 4. -/
def exampleB : Relation := ⟨"s.b", ["s.a"], "s", false, false⟩

/-- Example relation `C` (depends on `B`) of spec property 4. -/
def exampleC : Relation := ⟨"s.c", ["s.b"], "s", false, false⟩

theorem filter_contains_matches (seq : List Relation) (sel : String → Bool)
    (hnodup : (seq.map Relation.identifier).Nodup) :
    seq.filter (fun r =>
        ((seq.filter (fun s => sel s.identifier)).map Relation.identifier).contains
          r.identifier) =
      seq.filter (fun r => sel r.identifier) := by
  apply List.filter_congr
  intro r hr
  show ((seq.filter (fun s => sel s.identifier)).map Relation.identifier).contains
      r.identifier = sel r.identifier
  cases hsel : sel r.identifier with
  | false =>
    apply Bool.eq_false_iff.mpr
    intro helem
    have hmem : r.identifier ∈ (seq.filter (fun s => sel s.identifier)).map
        Relation.identifier := List.elem_iff.mp helem
    rcases List.mem_map.mp hmem with ⟨s, hs, hid⟩
    have hs' := List.mem_filter.mp hs
    have heq : s = r := List.inj_on_of_nodup_map hnodup hs'.1 hr hid
    rw [heq, hsel] at hs'
    exact absurd hs'.2 (by simp)
  | true =>
    have hmem : r.identifier ∈ (seq.filter (fun s => sel s.identifier)).map
        Relation.identifier := List.mem_map.mpr ⟨r, List.mem_filter.mpr ⟨hr, hsel⟩, rfl⟩
    exact List.elem_iff.mpr hmem

/-- **C6.** `evaluate_execution_order` with `only_first` raises a
configuration error whenever the selector does not match exactly one
relation; with `only_first` and a unique match no dependent propagation is
performed (the worklist is exactly the matched relation and the schema
set is derived from the matches alone); without `only_first`, dependents
are propagated: for relations A (no dependencies), B (depends on A),
C (depends on B), selecting B yields the worklist `[B, C]` in that order,
while selecting B with `only_first` yields `[B]` only. -/
theorem evaluate_execution_order_spec :
    (∀ (relations : List Relation) (selector : String → Bool) (ws : Bool)
       (seq : List Relation), order_by_dependencies relations = .ok seq →
       (find_matches seq selector).length ≠ 1 →
       evaluate_execution_order relations selector true ws =
         .error (.valueError "Bad selector, should result in single table being selected")) ∧
    (∀ (relations : List Relation) (selector : String → Bool) (seq : List Relation),
       order_by_dependencies relations = .ok seq →
       (seq.map Relation.identifier).Nodup →
       (find_matches seq selector).length = 1 →
       evaluate_execution_order relations selector true false =
         .ok (find_matches seq selector,
              listToSet ((find_matches seq selector).map Relation.schema))) ∧
    (evaluate_execution_order [exampleA, exampleB, exampleC]
       (fun id => id == "s.b") false false = .ok ([exampleB, exampleC], ["s"])) ∧
    (evaluate_execution_order [exampleA, exampleB, exampleC]
       (fun id => id == "s.b") true false = .ok ([exampleB], ["s"])) := by
  refine ⟨?_, ?_, by rfl, by rfl⟩
  · intro relations selector ws seq horder hlen
    rw [evaluate_execution_order, horder]
    simp [find_matches] at hlen
    simp [find_matches, hlen]
  · intro relations selector seq horder hnodup hlen
    rw [evaluate_execution_order, horder]
    simp only [if_true]
    rw [if_neg (by rw [not_not]; exact hlen)]
    rw [if_neg (by simp)]
    rw [finishEvaluation]
    simp only [if_neg (by simp : ¬ (false = true))]
    rw [Except.ok.injEq]
    have hfm : (find_matches seq selector) = seq.filter (fun r => selector r.identifier) := rfl
    rw [hfm, filter_contains_matches seq selector hnodup]

/-- Witness for C6: the first conjunct at a selector matching nothing,
the second at the A/B/C example with selector B. -/
theorem evaluate_execution_order_spec_witness :
    (evaluate_execution_order [exampleA, exampleB, exampleC] (fun _ => false) true false =
      .error (.valueError "Bad selector, should result in single table being selected")) ∧
    (evaluate_execution_order [exampleA, exampleB, exampleC] (fun id => id == "s.b")
        true false =
      .ok (find_matches [exampleA, exampleB, exampleC] (fun id => id == "s.b"),
           listToSet ((find_matches [exampleA, exampleB, exampleC]
             (fun id => id == "s.b")).map Relation.schema))) := by
  constructor
  · exact evaluate_execution_order_spec.1 [exampleA, exampleB, exampleC] (fun _ => false)
      false [exampleA, exampleB, exampleC] (by rfl) (by simp [find_matches, exampleA,
        exampleB, exampleC])
  · exact evaluate_execution_order_spec.2.1 [exampleA, exampleB, exampleC]
      (fun id => id == "s.b") [exampleA, exampleB, exampleC] (by rfl)
      (by simp [exampleA, exampleB, exampleC]) (by rfl)

/-- **C9.** `evaluate_execution_order` called with both `only_first` and
`whole_schemas` always raises an error and never returns a worklist: the
combination is rejected at the public interface (when the selector also
fails to match exactly one relation, the selector error fires first; a
cyclic dependency set errors even earlier). -/
theorem evaluate_execution_order_exclusive (relations : List Relation)
    (selector : String → Bool) :
    ∃ e, evaluate_execution_order relations selector true true = .error e := by
  rw [evaluate_execution_order]
  cases horder : order_by_dependencies relations with
  | error e => exact ⟨e, rfl⟩
  | ok seq =>
    simp only [if_true]
    by_cases hlen : (find_matches seq selector).length = 1
    · exact ⟨.valueError "Cannot elect to pick both, entire schemas and only first relation",
        by rw [if_neg (by rw [not_not]; exact hlen)]⟩
    · exact ⟨.valueError "Bad selector, should result in single table being selected",
        by rw [if_pos hlen]⟩

/-- Witness for C9 (its only hypotheses are the universally quantified
inputs): the A/B/C example with a selector matching `B` errors when both
options are set. -/
theorem evaluate_execution_order_exclusive_witness :
    ∃ e, evaluate_execution_order [exampleA, exampleB, exampleC]
      (fun id => id == "s.b") true true = .error e :=
  evaluate_execution_order_exclusive [exampleA, exampleB, exampleC] (fun id => id == "s.b")

/-! ### Lemmas about the load worklist loop -/

theorem loadLoop_stall (executionOrder : List Relation) (ws : Bool) (fails : String → Bool)
    (l : List Relation) (st : LoadState) (h : st.result.isSome = true) :
    loadLoop executionOrder ws fails l st = st := by
  cases l with
  | nil => rfl
  | cons r rest => rw [loadLoop, if_pos h]

theorem loadLoop_append (executionOrder : List Relation) (ws : Bool) (fails : String → Bool)
    (pre post : List Relation) (st : LoadState) :
    loadLoop executionOrder ws fails (pre ++ post) st =
      loadLoop executionOrder ws fails post (loadLoop executionOrder ws fails pre st) := by
  induction pre generalizing st with
  | nil => rfl
  | cons r rest ih =>
    rw [List.cons_append, loadLoop, loadLoop]
    by_cases hres : st.result.isSome = true
    · rw [if_pos hres, if_pos hres, loadLoop_stall _ _ _ _ _ hres]
    · rw [if_neg hres, if_neg hres]
      split
      · exact ih _
      · split
        · split
          · dsimp only
            split
            · exact (loadLoop_stall _ _ _ _ _ (by simp)).symm
            · exact ih _
          · exact (loadLoop_stall _ _ _ _ _ (by simp)).symm
        · exact ih _

theorem loadLoop_skip_mono (executionOrder : List Relation) (ws : Bool)
    (fails : String → Bool) (l : List Relation) (st : LoadState) (x : String)
    (h : x ∈ st.skipAfterFail) :
    x ∈ (loadLoop executionOrder ws fails l st).skipAfterFail := by
  induction l generalizing st with
  | nil => exact h
  | cons r rest ih =>
    rw [loadLoop]
    split
    · exact h
    · split
      · exact ih _ h
      · split
        · split
          · dsimp only
            split
            · exact h
            · exact ih _ (List.mem_append_left _ h)
          · exact h
        · exact ih _ h

theorem loadLoop_report_mono (executionOrder : List Relation) (ws : Bool)
    (fails : String → Bool) (l : List Relation) (st : LoadState)
    (p : String × LoadStatus) (h : p ∈ st.report) :
    p ∈ (loadLoop executionOrder ws fails l st).report := by
  induction l generalizing st with
  | nil => exact h
  | cons r rest ih =>
    rw [loadLoop]
    split
    · exact h
    · split
      · exact ih _ (List.mem_append_left _ h)
      · split
        · split
          · dsimp only
            split
            · exact List.mem_append_left _ h
            · exact ih _ (List.mem_append_left _ h)
          · exact List.mem_append_left _ h
        · exact ih _ (List.mem_append_left _ h)

theorem loadLoop_result_none (executionOrder : List Relation) (fails : String → Bool)
    (l : List Relation) (st : LoadState)
    (hglobal : ∀ x ∈ l, fails x.identifier = true →
      x.is_required = false ∧ requiredDependentIds executionOrder x = [])
    (hres : st.result = none) :
    (loadLoop executionOrder true fails l st).result = none := by
  induction l generalizing st with
  | nil => exact hres
  | cons r rest ih =>
    rw [loadLoop, if_neg (by rw [hres]; simp)]
    have hrest : ∀ x ∈ rest, fails x.identifier = true →
        x.is_required = false ∧ requiredDependentIds executionOrder x = [] :=
      fun x hx => hglobal x (List.mem_cons_of_mem _ hx)
    split
    · exact ih _ hrest hres
    · split
      · next hfail =>
        obtain ⟨hreq, hdeps⟩ := hglobal r (List.mem_cons_self _ _) hfail
        rw [if_pos rfl]
        dsimp only
        rw [if_neg (by rw [hreq, hdeps]; simp)]
        exact ih _ hrest hres
      · exact ih _ hrest hres

theorem loadLoop_skipped_reported (executionOrder : List Relation) (fails : String → Bool)
    (l : List Relation) (st : LoadState) (id : String)
    (hglobal : ∀ x ∈ l, fails x.identifier = true →
      x.is_required = false ∧ requiredDependentIds executionOrder x = [])
    (hres : st.result = none)
    (hid : id ∈ st.skipAfterFail) :
    ∀ d ∈ l, d.identifier = id →
      (id, LoadStatus.skipped) ∈ (loadLoop executionOrder true fails l st).report := by
  induction l generalizing st with
  | nil => intro d hd; exact absurd hd (List.not_mem_nil d)
  | cons r rest ih =>
    intro d hd hdid
    have hrest : ∀ x ∈ rest, fails x.identifier = true →
        x.is_required = false ∧ requiredDependentIds executionOrder x = [] :=
      fun x hx => hglobal x (List.mem_cons_of_mem _ hx)
    rw [loadLoop, if_neg (by rw [hres]; simp)]
    by_cases hskip : st.skipAfterFail.contains r.identifier = true
    · rw [if_pos hskip]
      rcases List.mem_cons.mp hd with rfl | hd'
      · exact loadLoop_report_mono _ _ _ _ _ _
          (List.mem_append_right _ (by rw [hdid]; exact List.mem_singleton.mpr rfl))
      · exact ih _ hrest hres hid d hd' hdid
    · rw [if_neg hskip]
      have hdrest : d ∈ rest := by
        rcases List.mem_cons.mp hd with rfl | hd'
        · exact absurd (by rw [hdid]; exact List.elem_iff.mpr hid) hskip
        · exact hd'
      split
      · next hfail =>
        obtain ⟨hreq, hdeps⟩ := hglobal r (List.mem_cons_self _ _) hfail
        rw [if_pos rfl]
        dsimp only
        rw [if_neg (by rw [hreq, hdeps]; simp)]
        exact ih _ hrest hres (List.mem_append_left _ hid) d hdrest hdid
      · exact ih _ hrest hres hid d hdrest hdid

/-- Non-required example relation whose load fails. -/
def exampleFail : Relation := ⟨"s.f", [], "s", false, false⟩

/-- First non-required dependent of `exampleFail`. -/
def exampleDepOne : Relation := ⟨"s.d1", ["s.f"], "s", false, false⟩

/-- Second non-required dependent of `exampleFail`. -/
def exampleDepTwo : Relation := ⟨"s.d2", ["s.f"], "s", false, false⟩

/-- Required example relation whose load fails. -/
def exampleFailRequired : Relation := ⟨"s.f", [], "s", true, false⟩

/-- **C1.** In whole-schema load mode, for a relation `r` of the worklist
whose load raises (the loop having reached `r` neither aborted nor with
`r` in the skip set): if `r` is required or any transitive dependent of
`r` within the worklist is required, the loop aborts with
`RequiredRelationLoadError` carrying `r`'s identifier and the required
dependents' identifiers; otherwise — when every failing relation of the
worklist is non-required with no required dependents — no exception
escapes the loop, every transitive dependent of `r` is added to the skip
set, and each of them occurring later in the worklist is skipped (with a
warning) for the remainder of the run. -/
theorem load_cascading_failure_spec
    (executionOrder : List Relation) (fails : String → Bool)
    (pre post : List Relation) (r : Relation) (st1 final : LoadState)
    (hsplit : executionOrder = pre ++ r :: post)
    (hst1 : st1 = loadLoop executionOrder true fails pre ⟨[], [], [], none⟩)
    (hfinal : final = loadLoop executionOrder true fails executionOrder ⟨[], [], [], none⟩)
    (hnofatal1 : st1.result = none)
    (hnotskipped : st1.skipAfterFail.contains r.identifier = false)
    (hfail : fails r.identifier = true) :
    ((r.is_required = true ∨ requiredDependentIds executionOrder r ≠ []) →
      final.result = some (.requiredRelationLoad r.identifier
        (requiredDependentIds executionOrder r))) ∧
    ((∀ x ∈ executionOrder, fails x.identifier = true →
        x.is_required = false ∧ requiredDependentIds executionOrder x = []) →
      final.result = none ∧
      (∀ id ∈ (find_dependents executionOrder [r]).map Relation.identifier,
        id ∈ final.skipAfterFail) ∧
      (∀ d ∈ post,
        d.identifier ∈ (find_dependents executionOrder [r]).map Relation.identifier →
        (d.identifier, LoadStatus.skipped) ∈ final.report)) := by
  subst hsplit
  have hstep : final = loadLoop (pre ++ r :: post) true fails (r :: post) st1 := by
    rw [hfinal, loadLoop_append, ← hst1]
  have hone : loadLoop (pre ++ r :: post) true fails (r :: post) st1 =
      (if (r.is_required || !(requiredDependentIds (pre ++ r :: post) r).isEmpty) = true
       then
         { st1 with report := st1.report ++ [(r.identifier, .failedFatal)],
                    result := some (.requiredRelationLoad r.identifier
                      (requiredDependentIds (pre ++ r :: post) r)) }
       else loadLoop (pre ++ r :: post) true fails post
         { st1 with skipAfterFail := st1.skipAfterFail ++
                      (find_dependents (pre ++ r :: post) [r]).map Relation.identifier,
                    report := st1.report ++ [(r.identifier, .failedSkipDependents)] }) := by
    rw [loadLoop, if_neg (by rw [hnofatal1]; simp), if_neg (by rw [hnotskipped]; simp),
      if_pos hfail, if_pos rfl]
  constructor
  · intro hreq
    have hcond : (r.is_required || !(requiredDependentIds (pre ++ r :: post) r).isEmpty)
        = true := by
      rcases hreq with h | h
      · rw [h]; rfl
      · have hE : (requiredDependentIds (pre ++ r :: post) r).isEmpty = false := by
          cases hcase : requiredDependentIds (pre ++ r :: post) r with
          | nil => exact absurd hcase h
          | cons a l => rfl
        rw [hE]; simp
    rw [hstep, hone, if_pos hcond]
  · intro hglobal
    have hr : r ∈ pre ++ r :: post :=
      List.mem_append_right _ (List.mem_cons_self _ _)
    obtain ⟨hreq, hdeps⟩ := hglobal r hr hfail
    have hcond : (r.is_required || !(requiredDependentIds (pre ++ r :: post) r).isEmpty)
        = false := by rw [hreq, hdeps]; rfl
    have hfinal2 : final = loadLoop (pre ++ r :: post) true fails post
        { st1 with skipAfterFail := st1.skipAfterFail ++
                     (find_dependents (pre ++ r :: post) [r]).map Relation.identifier,
                   report := st1.report ++ [(r.identifier, .failedSkipDependents)] } := by
      rw [hstep, hone, if_neg (by rw [hcond]; simp)]
    have hpost : ∀ x ∈ post, fails x.identifier = true →
        x.is_required = false ∧ requiredDependentIds (pre ++ r :: post) x = [] :=
      fun x hx => hglobal x
        (List.mem_append_right _ (List.mem_cons_of_mem _ hx))
    refine ⟨?_, ?_, ?_⟩
    · rw [hfinal2]
      exact loadLoop_result_none _ _ _ _ hpost hnofatal1
    · intro id hidmem
      rw [hfinal2]
      exact loadLoop_skip_mono _ _ _ _ _ _ (List.mem_append_right _ hidmem)
    · intro d hd hdid
      rw [hfinal2]
      exact loadLoop_skipped_reported _ _ _ _ d.identifier hpost hnofatal1
        (List.mem_append_right _ hdid) d hd rfl

/-- Witness for C1: a required failing relation aborts the loop with
`RequiredRelationLoadError`; a non-required failing relation with two
non-required dependents lets the run complete with both dependents in the
skip set and reported as skipped. -/
theorem load_cascading_failure_spec_witness :
    ((loadLoop [exampleFailRequired, exampleDepOne, exampleDepTwo] true
        (fun id => id == "s.f") [exampleFailRequired, exampleDepOne, exampleDepTwo]
        ⟨[], [], [], none⟩).result =
      some (.requiredRelationLoad "s.f" [])) ∧
    ((loadLoop [exampleFail, exampleDepOne, exampleDepTwo] true
        (fun id => id == "s.f") [exampleFail, exampleDepOne, exampleDepTwo]
        ⟨[], [], [], none⟩).result = none ∧
      (∀ id ∈ (find_dependents [exampleFail, exampleDepOne, exampleDepTwo]
          [exampleFail]).map Relation.identifier,
        id ∈ (loadLoop [exampleFail, exampleDepOne, exampleDepTwo] true
          (fun id => id == "s.f") [exampleFail, exampleDepOne, exampleDepTwo]
          ⟨[], [], [], none⟩).skipAfterFail) ∧
      (∀ d ∈ [exampleDepOne, exampleDepTwo],
        d.identifier ∈ (find_dependents [exampleFail, exampleDepOne, exampleDepTwo]
          [exampleFail]).map Relation.identifier →
        (d.identifier, LoadStatus.skipped) ∈ (loadLoop
          [exampleFail, exampleDepOne, exampleDepTwo] true (fun id => id == "s.f")
          [exampleFail, exampleDepOne, exampleDepTwo] ⟨[], [], [], none⟩).report)) := by
  constructor
  · exact (load_cascading_failure_spec
      [exampleFailRequired, exampleDepOne, exampleDepTwo] (fun id => id == "s.f")
      [] [exampleDepOne, exampleDepTwo] exampleFailRequired ⟨[], [], [], none⟩ _
      rfl rfl rfl rfl rfl rfl).1 (Or.inl rfl)
  · exact (load_cascading_failure_spec
      [exampleFail, exampleDepOne, exampleDepTwo] (fun id => id == "s.f")
      [] [exampleDepOne, exampleDepTwo] exampleFail ⟨[], [], [], none⟩ _
      rfl rfl rfl rfl rfl rfl).2 (by decide)

/-- **C2.** In `load_or_update_redshift`, whenever an exception escapes
the worklist loop it is re-raised to the caller, and the backed-up
schemas are restored exactly when the run is in whole-schema mode
(`drop` and not `stop_after_first`) and this is neither a dry run nor a
`no_rollback` run; restoration implies the backup was taken; in
non-whole-schema mode no restoration is ever attempted. -/
theorem load_rollback_spec (relations : List Relation) (selector fails : String → Bool)
    (drop stopAfterFirst noRollback dryRun : Bool) (run : LoadRunResult)
    (hrun : load_or_update_redshift relations selector fails drop stopAfterFirst
      noRollback dryRun = .ok run) :
    run.raised = run.loopState.result ∧
    run.restored = (run.loopState.result.isSome && (drop && !stopAfterFirst) &&
      !dryRun && !noRollback) ∧
    (run.restored = true → run.backupTaken = true) ∧
    ((drop && !stopAfterFirst) = false → run.restored = false) := by
  rw [load_or_update_redshift] at hrun
  cases heval : evaluate_execution_order relations selector stopAfterFirst
      (drop && !stopAfterFirst) with
  | error e =>
    rw [heval] at hrun
    exact absurd hrun (by simp)
  | ok pair =>
    obtain ⟨executionOrder, involvedSchemas⟩ := pair
    rw [heval] at hrun
    dsimp only at hrun
    cases hres : (loadLoop executionOrder (drop && !stopAfterFirst) fails executionOrder
        ⟨[], [], [], none⟩).result with
    | some e =>
      rw [hres] at hrun
      dsimp only at hrun
      rw [Except.ok.injEq] at hrun
      obtain rfl := hrun
      refine ⟨by dsimp only; rw [hres], ?_, ?_, ?_⟩
      · dsimp only
        rw [hres]
        cases drop <;> cases stopAfterFirst <;> cases dryRun <;> cases noRollback <;> rfl
      · intro h
        dsimp only at h ⊢
        cases drop <;> cases stopAfterFirst <;> cases dryRun <;> cases noRollback <;>
          simp_all
      · intro h
        dsimp only
        rw [h]
        rfl
    | none =>
      rw [hres] at hrun
      dsimp only at hrun
      rw [Except.ok.injEq] at hrun
      obtain rfl := hrun
      exact ⟨by dsimp only; rw [hres], by dsimp only; rw [hres]; simp, by simp, fun _ => rfl⟩

/-- Witness for C2: a single required relation whose load fails in a
whole-schema run (`drop`, not `stop_after_first`, no dry run, rollback
allowed) raises `RequiredRelationLoadError` and restores the backed-up
schemas. -/
theorem load_rollback_spec_witness :
    (⟨[exampleFailRequired], true,
        ⟨[], [], [("s.f", LoadStatus.failedFatal)],
          some (.requiredRelationLoad "s.f" [])⟩, true,
        some (.requiredRelationLoad "s.f" []), []⟩ : LoadRunResult).raised =
      (⟨[exampleFailRequired], true,
        ⟨[], [], [("s.f", LoadStatus.failedFatal)],
          some (.requiredRelationLoad "s.f" [])⟩, true,
        some (.requiredRelationLoad "s.f" []), []⟩ : LoadRunResult).loopState.result ∧
    (⟨[exampleFailRequired], true,
        ⟨[], [], [("s.f", LoadStatus.failedFatal)],
          some (.requiredRelationLoad "s.f" [])⟩, true,
        some (.requiredRelationLoad "s.f" []), []⟩ : LoadRunResult).restored =
      ((⟨[exampleFailRequired], true,
        ⟨[], [], [("s.f", LoadStatus.failedFatal)],
          some (.requiredRelationLoad "s.f" [])⟩, true,
        some (.requiredRelationLoad "s.f" []), []⟩ : LoadRunResult).loopState.result.isSome &&
        (true && !false) && !false && !false) ∧
    ((⟨[exampleFailRequired], true,
        ⟨[], [], [("s.f", LoadStatus.failedFatal)],
          some (.requiredRelationLoad "s.f" [])⟩, true,
        some (.requiredRelationLoad "s.f" []), []⟩ : LoadRunResult).restored = true →
      (⟨[exampleFailRequired], true,
        ⟨[], [], [("s.f", LoadStatus.failedFatal)],
          some (.requiredRelationLoad "s.f" [])⟩, true,
        some (.requiredRelationLoad "s.f" []), []⟩ : LoadRunResult).backupTaken = true) ∧
    ((true && !false) = false →
      (⟨[exampleFailRequired], true,
        ⟨[], [], [("s.f", LoadStatus.failedFatal)],
          some (.requiredRelationLoad "s.f" [])⟩, true,
        some (.requiredRelationLoad "s.f" []), []⟩ : LoadRunResult).restored = false) :=
  load_rollback_spec [exampleFailRequired] (fun _ => true) (fun id => id == "s.f")
    true false false false _ rfl

/-! ### Theorems about constraint verification -/

/-- The duplicate check as the claim words it: rows with any null column
are excluded for both `"unique"` and `"natural_key"` ("unique-style")
constraints.  Kept only to compare against `dupGroups`, which follows the
source and excludes nulls solely for `"unique"`. -/
def claimedDupGroups (rows : List Row) (ctype : String) (columns : List String) :
    List (List (Option String)) :=
  let filtered :=
    if ctype = "unique" || ctype = "natural_key" then
      rows.filter (fun row => columns.all (fun c => (row c).isSome))
    else rows
  let keys := filtered.map (fun row => columns.map row)
  ((dedupKeys [] keys).filter (fun k => keys.count k > 1)).take 5

/-- Counterexample to C7 as stated: a `natural_key` constraint on `email`
over two all-NULL rows.  The code's check (condition `TRUE`) reports the
NULL tuple as a duplicate group and raises `FailedConstraintError`,
whereas the claim's null exclusion for natural keys would report no
duplicate group at all. -/
theorem verify_constraints_natural_key_cex :
    verify_constraints "s.t" (some [⟨"natural_key", ["email"]⟩])
        [emailRow none, emailRow none] false =
      some ⟨"s.t", "natural_key", ["email"], [[none]]⟩ ∧
    claimedDupGroups [emailRow none, emailRow none] "natural_key" ["email"] = [] ∧
    ([[none]] : List (List (Option String))) ≠ [] := by
  refine ⟨rfl, rfl, by simp⟩

/-- **C7 (amended).** `verify_constraints` runs one duplicate-detection
query per declared constraint over its columns; rows with any null column
are excluded from the duplicate check only for constraints declared
`"unique"` (every other type, including `natural_key`, uses the condition
`TRUE`); the number of example duplicate groups returned is capped at 5;
the first constraint with a duplicate group raises
`FailedConstraintError` carrying the relation identifier, constraint
kind, columns and example rows, and when no constraint has duplicates
nothing is raised; in particular a `unique` constraint on `email` with
two equal non-null rows and one NULL row reports exactly one duplicate
group. -/
theorem verify_constraints_spec :
    (∀ (identifier : String) (cs : List Constraint) (rows : List Row)
       (f : FailedConstraint),
      verify_constraints identifier (some cs) rows false = some f →
      f.identifier = identifier ∧ ∃ c ∈ cs, f.constraint_type = c.ctype ∧
        f.columns = c.columns ∧ f.examples = dupGroups rows c.ctype c.columns ∧
        dupGroups rows c.ctype c.columns ≠ []) ∧
    (∀ (identifier : String) (cs : List Constraint) (rows : List Row),
      (∀ c ∈ cs, dupGroups rows c.ctype c.columns = []) →
      verify_constraints identifier (some cs) rows false = none) ∧
    (∀ (rows : List Row) (ctype : String) (columns : List String),
      (dupGroups rows ctype columns).length ≤ 5) ∧
    (∀ (columns : List String) (row : Row),
      constraintCondition "unique" columns row = columns.all (fun c => (row c).isSome)) ∧
    (∀ (ctype : String), ctype ≠ "unique" → ∀ (columns : List String) (row : Row),
      constraintCondition ctype columns row = true) ∧
    (dupGroups exampleEmailRows "unique" ["email"] = [[some "a@b"]] ∧
      verify_constraints "s.t" (some [⟨"unique", ["email"]⟩]) exampleEmailRows false =
        some ⟨"s.t", "unique", ["email"], [[some "a@b"]]⟩) := by
  refine ⟨?_, ?_, ?_, ?_, ?_, rfl, rfl⟩
  · intro identifier cs rows f
    rw [verify_constraints]
    induction cs with
    | nil => intro h; exact absurd h (by simp [verifyLoop])
    | cons c rest ih =>
      rw [verifyLoop]
      rw [if_neg (by simp)]
      dsimp only
      by_cases hempty : (dupGroups rows c.ctype c.columns).isEmpty = true
      · rw [if_pos hempty]
        intro h
        obtain ⟨hid, c', hc', hrest⟩ := ih h
        exact ⟨hid, c', List.mem_cons_of_mem _ hc', hrest⟩
      · rw [if_neg hempty]
        intro h
        rw [Option.some.injEq] at h
        obtain rfl := h.symm
        refine ⟨rfl, c, List.mem_cons_self _ _, rfl, rfl, rfl, ?_⟩
        intro hnil
        rw [hnil] at hempty
        exact hempty rfl
  · intro identifier cs rows hall
    rw [verify_constraints]
    induction cs with
    | nil => rfl
    | cons c rest ih =>
      rw [verifyLoop, if_neg (by simp)]
      dsimp only
      rw [if_pos (by rw [hall c (List.mem_cons_self _ _)]; rfl)]
      exact ih (fun c' hc' => hall c' (List.mem_cons_of_mem _ hc'))
  · intro rows ctype columns
    rw [dupGroups]
    exact le_trans (List.length_take_le 5 _) (le_refl 5)
  · intro columns row
    rw [constraintCondition, if_pos rfl]
  · intro ctype hne columns row
    rw [constraintCondition, if_neg hne]

/-- Witness for C7: the error raised for the example `unique` constraint
carries the relation identifier, constraint kind, columns, and the single
duplicate group; a constraint with no duplicates raises nothing. -/
theorem verify_constraints_spec_witness :
    ((⟨"s.t", "unique", ["email"], [[some "a@b"]]⟩ : FailedConstraint).identifier =
        "s.t" ∧
      ∃ c ∈ [(⟨"unique", ["email"]⟩ : Constraint)],
        (⟨"s.t", "unique", ["email"], [[some "a@b"]]⟩ : FailedConstraint).constraint_type
            = c.ctype ∧
          (⟨"s.t", "unique", ["email"], [[some "a@b"]]⟩ : FailedConstraint).columns =
            c.columns ∧
          (⟨"s.t", "unique", ["email"], [[some "a@b"]]⟩ : FailedConstraint).examples =
            dupGroups exampleEmailRows c.ctype c.columns ∧
          dupGroups exampleEmailRows c.ctype c.columns ≠ []) ∧
    verify_constraints "s.t" (some [⟨"unique", ["no_dups"]⟩])
      [emailRow (some "a@b")] false = none := by
  constructor
  · exact verify_constraints_spec.1 "s.t" [⟨"unique", ["email"]⟩] exampleEmailRows
      ⟨"s.t", "unique", ["email"], [[some "a@b"]]⟩ (by rfl)
  · exact verify_constraints_spec.2.1 "s.t" [⟨"unique", ["no_dups"]⟩]
      [emailRow (some "a@b")] (by intro c hc; rw [List.mem_singleton] at hc; subst hc; rfl)

/-- Witness for C10: a relation without a manifest under `skip_copy` load
runs no statements and succeeds. -/
theorem copy_data_spec_witness :
    ((copy_data false true false (fun _ => false)).2 = .missingManifest ↔
      (false = false ∧ false = false ∧ true = false)) ∧
    copy_data false true false (fun _ => false) = ([], .ok) :=
  ⟨(copy_data_spec false true false (fun _ => false)).1,
   (copy_data_spec false true false (fun _ => false)).2 rfl rfl⟩

end ETL
